import Mathlib

/-!
Verification development for the diesel-generator run-hour reconciliation
pipeline (`PG2.py`).  The pipeline is embedded shallowly: pandas frames become
lists of structures, missing values (`NaN` / `NaT` / `pd.NA`) become `Option`,
numeric values become `ℚ`, and parsed timestamps become rationals measured in
days (so that `.dt.days` is the floor of a difference).  The IEEE-float
behaviour that the summary's grid-availability computation relies on
(division by zero producing `±inf` or `NaN`, `clip` mapping infinities to the
bounds, `fillna` replacing `NaN`) is modelled by the small extended-rational
type `PFloat`.
-/

namespace PGRun

/-! ## Character-level helpers -/

/-- ASCII model of the characters matched by the regex class `\s`. -/
def isPyWs (c : Char) : Bool :=
  c = ' ' || c = '\t' || c = '\n' || c = '\r' || c = '\x0b' || c = '\x0c'

/-- Characters matched by the regex class `\w` (ASCII model): used for the
word boundary `\b` in the generator pattern. -/
def isWordChar (c : Char) : Bool :=
  c.isAlphanum || c = '_'

/-- Characters kept by `re.sub(r"[^A-Za-z0-9_]", "", s)` in `normalize_site`. -/
def isSiteChar (c : Char) : Bool :=
  c.isUpper || c.isLower || c.isDigit || c = '_'

/-- Lower-cased character list of a string; models the effect of matching
with `re.IGNORECASE` / `case=False` against lower-case literal patterns. -/
def lowerChars (s : String) : List Char :=
  s.data.map Char.toLower

/-- Substring test: `pat` occurs somewhere in `s` (Python `pat in s`). -/
def containsSub (pat s : List Char) : Bool :=
  s.tails.any (fun t => pat.isPrefixOf t)

/-! ## Site-key normalization (`normalize_site` in `PG2.py`)

`normalize_site` removes non-breaking and zero-width spaces, turns hyphens
into underscores, strips every character outside `[A-Za-z0-9_]`, upper-cases
the result, and maps an empty result (and a missing input) to `NaN`. -/

/-- Character pipeline of `normalize_site`. -/
def siteKeyChars (l : List Char) : List Char :=
  (((l.filter (fun c => !(c = ' ' || c = '​'))).map
      (fun c => if c = '-' then '_' else c)).filter isSiteChar).map Char.toUpper

/-- The canonical site key (`__site_key__`): `none` models `NaN`. -/
def normalize_site : Option String → Option String
  | none => none
  | some v =>
      let s := String.mk (siteKeyChars v.data)
      if s = "" then none else some s

/-! ## Alarm-classification patterns (lines 297-301 of `PG2.py`)

`mg_mains = r"(mains|ac\s*mains|grid\s*fail|grid\s*down)"` and
`mg_gen = r"(genset|generator|dg\b|diesel\s*gen)"`, both searched
case-insensitively with `str.contains(..., case=False, na=False)`.
Each alternative is a literal, possibly with an inner `\s*` (greedy; since the
following literal never starts with whitespace, skipping all whitespace is
equivalent) or a trailing `\b`. -/

/-- Match `lit1` then `\s*` then `lit2` at the start of `s`. -/
def litWsLit (lit1 lit2 s : List Char) : Bool :=
  lit1.isPrefixOf s && lit2.isPrefixOf ((s.drop lit1.length).dropWhile isPyWs)

/-- One alternative of the mains pattern matches at the start of `s`. -/
def mainsAt (s : List Char) : Bool :=
  "mains".data.isPrefixOf s ||
  litWsLit "ac".data "mains".data s ||
  litWsLit "grid".data "fail".data s ||
  litWsLit "grid".data "down".data s

/-- One alternative of the generator pattern matches at the start of `s`.
`dg\b` requires the character after `dg` (if any) to be a non-word char. -/
def genAt (s : List Char) : Bool :=
  "genset".data.isPrefixOf s ||
  "generator".data.isPrefixOf s ||
  ("dg".data.isPrefixOf s &&
    (match (s.drop 2).head? with
     | none => true
     | some c => !isWordChar c)) ||
  litWsLit "diesel".data "gen".data s

/-- `re.search`: some position of `s` starts a match. -/
def searchAny (p : List Char → Bool) (s : List Char) : Bool :=
  s.tails.any p

/-- `str.contains(mg_mains, case=False)` on a slogan string. -/
def containsMainsPat (s : String) : Bool :=
  searchAny mainsAt (lowerChars s)

/-- `str.contains(mg_gen, case=False)` on a slogan string. -/
def containsGenPat (s : String) : Bool :=
  searchAny genAt (lowerChars s)

/-- Mains-pattern test on a possibly missing slogan (`na=False`). -/
def sloganHasMains : Option String → Bool
  | none => false
  | some s => containsMainsPat s

/-- Generator-pattern test on a possibly missing slogan (`na=False`). -/
def sloganHasGen : Option String → Bool
  | none => false
  | some s => containsGenPat s

/-- The `mg` tag of one merged row.  The code first assigns `"M"` to rows
matching the mains pattern and afterwards assigns `"G"` to rows matching the
generator pattern, so the second assignment overwrites the first. -/
def tagOf (slogan : Option String) : Option String :=
  let mg0 : Option String := none
  let mg1 := if sloganHasMains slogan then some "M" else mg0
  if sloganHasGen slogan then some "G" else mg1

/-! ## Extended rationals modelling IEEE float special values -/

/-- A pandas float cell: `NaN`, `±inf` (the `Bool` is the sign, `true` for
positive infinity) or a finite value. -/
inductive PFloat where
  | nan : PFloat
  | inf : Bool → PFloat
  | fin : ℚ → PFloat
deriving DecidableEq

namespace PFloat

/-- IEEE subtraction on the modelled values. -/
def sub : PFloat → PFloat → PFloat
  | nan, _ => nan
  | _, nan => nan
  | fin a, fin b => fin (a - b)
  | fin _, inf s => inf (!s)
  | inf s, fin _ => inf s
  | inf s, inf t => if s = t then nan else inf s

/-- IEEE multiplication on the modelled values. -/
def mul : PFloat → PFloat → PFloat
  | nan, _ => nan
  | _, nan => nan
  | fin a, fin b => fin (a * b)
  | inf s, fin b => if b = 0 then nan else if 0 < b then inf s else inf (!s)
  | fin a, inf s => if a = 0 then nan else if 0 < a then inf s else inf (!s)
  | inf s, inf t => inf (s == t)

/-- IEEE division on the modelled values; `x/0` is `NaN` for `x = 0` and a
signed infinity otherwise. -/
def div : PFloat → PFloat → PFloat
  | nan, _ => nan
  | _, nan => nan
  | fin a, fin b =>
      if b = 0 then (if a = 0 then nan else inf (decide (0 < a))) else fin (a / b)
  | fin _, inf _ => fin 0
  | inf s, fin b => if b < 0 then inf (!s) else inf s
  | inf _, inf _ => nan

/-- `Series.clip(lo, hi)`: finite values are clamped, infinities map to the
corresponding bound, `NaN` is left alone. -/
def clip (lo hi : ℚ) : PFloat → PFloat
  | nan => nan
  | inf s => if s then fin hi else fin lo
  | fin q => fin (max lo (min hi q))

/-- `Series.fillna(v)`. -/
def fillna (v : ℚ) : PFloat → PFloat
  | nan => fin v
  | x => x

/-- Extract the finite value (the pipelines below only read this after
`clip`/`fillna` have removed all special values). -/
def toRat : PFloat → ℚ
  | fin q => q
  | _ => 0

end PFloat

/-! ## Data model -/

/-- One normalized alarm row (`df_all` after column normalization,
`duration_hrs = pd.to_numeric(...).fillna(0)` and
`alarm_raised_date = pd.to_datetime(..., errors="coerce")`).
Timestamps are rationals in units of days; `none` is `NaT`/`NaN`. -/
structure AlarmRow where
  site : Option String
  alarm_slogan : Option String
  alarm_raised_date : Option ℚ
  duration_hrs : ℚ
  source_file : String
deriving DecidableEq

/-- One normalized reference row (`df_ref` after column normalization, date
parsing and `claimed_rh = pd.to_numeric(...).fillna(0)`). -/
structure RefRow where
  site_id : Option String
  previous_refuelling_date : Option ℚ
  present_refuelling_date : Option ℚ
  claimed_rh : ℚ
deriving DecidableEq

/-- Canonical key of a reference row. -/
def refKey (r : RefRow) : Option String :=
  normalize_site r.site_id

/-- Canonical key of an alarm row. -/
def alarmKey (a : AlarmRow) : Option String :=
  normalize_site a.site

/-- NaT-propagating subtraction of two parsed dates. -/
def optSub : Option ℚ → Option ℚ → Option ℚ
  | some a, some b => some (a - b)
  | _, _ => none

/-- `.dt.days` of a timedelta: floor of the day-valued difference. -/
def dtDays : Option ℚ → Option Int
  | some d => some (Rat.floor d)
  | none => none

/-- `day_difference = (present - previous).dt.days.fillna(0).astype(int)`. -/
def day_difference (r : RefRow) : Int :=
  (dtDays (optSub r.present_refuelling_date r.previous_refuelling_date)).getD 0

/-- `total_available_hr = day_difference * 24`. -/
def total_available_hr (r : RefRow) : ℚ :=
  (day_difference r : ℚ) * 24

/-- `average_dgrh = np.where(day_difference > 0, claimed_rh / day_difference, 0)`. -/
def average_dgrh (r : RefRow) : ℚ :=
  if 0 < day_difference r then r.claimed_rh / (day_difference r : ℚ) else 0

/-! ## Generic first-occurrence deduplication -/

/-- Keep the first row for each key `f x`, skipping rows whose key was already
seen; models both `drop_duplicates(keep="first")` and the candidate
deduplication loop. -/
def dedupByAux {α β : Type} [DecidableEq β] (f : α → β) : List β → List α → List α
  | _, [] => []
  | seen, x :: xs =>
      if f x ∈ seen then dedupByAux f seen xs
      else x :: dedupByAux f (f x :: seen) xs

/-- `df_ref.drop_duplicates("__site_key__", keep="first")` (pandas treats the
missing key as equal to itself, as `Option` equality does). -/
def dedupRef (ref : List RefRow) : List RefRow :=
  dedupByAux refKey [] ref

/-! ## Window filter (lines 286-294) -/

/-- Comparison against a possibly missing value: any comparison involving
`NaT` is `False` in pandas. -/
def optLe : Option ℚ → Option ℚ → Bool
  | some a, some b => decide (a ≤ b)
  | _, _ => false

/-- The inner merge of the alarm table with the (already deduplicated)
reference table on `__site_key__`. -/
def innerMerge (alarms : List AlarmRow) (ref : List RefRow) : List (AlarmRow × RefRow) :=
  alarms.flatMap (fun a =>
    (ref.filter (fun r => decide (refKey r = alarmKey a))).map (fun r => (a, r)))

/-- The window mask: `previous ≤ raised ∧ raised ≤ present`, false on any
missing value. -/
def inWindow (a : AlarmRow) (r : RefRow) : Bool :=
  optLe r.previous_refuelling_date a.alarm_raised_date &&
  optLe a.alarm_raised_date r.present_refuelling_date

/-- `merged` after the refuelling-window filter. -/
def windowed (alarms : List AlarmRow) (ref : List RefRow) : List (AlarmRow × RefRow) :=
  (innerMerge alarms (dedupRef ref)).filter (fun p => inWindow p.1 p.2)

/-- A windowed, classified alarm row. -/
structure TaggedRow where
  site : Option String
  alarm_slogan : Option String
  alarm_raised_date : Option ℚ
  duration_hrs : ℚ
  source_file : String
  site_key : Option String
  mg : Option String
deriving DecidableEq

/-- The windowed alarm rows with their `mg` tag. -/
def taggedRows (alarms : List AlarmRow) (ref : List RefRow) : List TaggedRow :=
  (windowed alarms ref).map (fun p =>
    { site := p.1.site
      alarm_slogan := p.1.alarm_slogan
      alarm_raised_date := p.1.alarm_raised_date
      duration_hrs := p.1.duration_hrs
      source_file := p.1.source_file
      site_key := alarmKey p.1
      mg := tagOf p.1.alarm_slogan })

/-! ## Aggregation (lines 308-313) -/

/-- Summed duration for one `(site key, mg)` group. -/
def sumDur (w : List TaggedRow) (k : String) (tag : String) : ℚ :=
  ((w.filter (fun t => decide (t.site_key = some k) && decide (t.mg = some tag))).map
    (fun t => t.duration_hrs)).sum

/-- The site keys of the `groupby(["__site_key__", "mg"])` result: rows whose
key or tag is missing are dropped, remaining keys deduplicated in first-seen
order. -/
def aggKeys (w : List TaggedRow) : List String :=
  dedupByAux id []
    (w.filterMap (fun t =>
      match t.site_key, t.mg with
      | some k, some _ => some k
      | _, _ => none))

/-- The unstacked aggregate table: per site key the genset and mains sums
(`fill_value=0` supplies zero for an absent tag). -/
def aggTable (w : List TaggedRow) : List (String × ℚ × ℚ) :=
  (aggKeys w).map (fun k => (k, sumDur w k "G", sumDur w k "M"))

/-- One left-merge step of `df_ref.merge(agg, on="__site_key__", how="left")`
followed by `fillna(0)`: an unmatched reference row gets zero aggregates. -/
def aggFor (w : List TaggedRow) (r : RefRow) : List (RefRow × ℚ × ℚ) :=
  match (aggTable w).filter (fun e => decide ((some e.1 : Option String) = refKey r)) with
  | [] => [(r, 0, 0)]
  | e :: es => (e :: es).map (fun e' => (r, e'.2))

/-- The reference table left-joined with the aggregates. -/
def refWithAgg (w : List TaggedRow) (ref : List RefRow) : List (RefRow × ℚ × ℚ) :=
  (dedupRef ref).flatMap (aggFor w)

/-! ## Raw table and the DG ≥ 10 extraction (lines 336-367) -/

/-- Round to two decimals with ties to even (numpy `round(2)`). -/
def round2 (q : ℚ) : ℚ :=
  let x := q * 100
  let n := Rat.floor x
  let f := x - (n : ℚ)
  let r : Int :=
    if f < 1/2 then n
    else if 1/2 < f then n + 1
    else if n % 2 = 0 then n else n + 1
  (r : ℚ) / 100

/-- One row of the `raw` table (column-renamed copy of `merged` plus the
`dg_rh_ge_10` flag; `some v` models the rounded duration, `none` the string
`"No"`). -/
structure RawRow where
  site_id : Option String
  date : Option ℚ
  duration_hr : ℚ
  alarm_slogan : Option String
  alarm_type : Option String
  source_file : String
  dg_rh_ge_10 : Option ℚ
deriving DecidableEq

/-- Projection of a tagged row to a raw-table row. -/
def rawOf (t : TaggedRow) : RawRow :=
  { site_id := t.site
    date := t.alarm_raised_date
    duration_hr := t.duration_hrs
    alarm_slogan := t.alarm_slogan
    alarm_type := t.mg
    source_file := t.source_file
    dg_rh_ge_10 :=
      if decide (t.mg = some "G") && decide ((10 : ℚ) ≤ t.duration_hrs)
      then some (round2 t.duration_hrs) else none }

/-- The downloadable raw table. -/
def rawTable (alarms : List AlarmRow) (ref : List RefRow) : List RawRow :=
  (taggedRows alarms ref).map rawOf

/-- `raw.loc[(raw["alarm_type"]=="G") & (raw["duration_hr"]>=10)]`. -/
def dg10Qualifying (raw : List RawRow) : List RawRow :=
  raw.filter (fun q => decide (q.alarm_type = some "G") && decide ((10 : ℚ) ≤ q.duration_hr))

/-- The distinct raw site ids of the qualifying rows (`groupby("site_id")`
drops a missing site id). -/
def dg10Sites (raw : List RawRow) : List String :=
  dedupByAux id [] ((dg10Qualifying raw).filterMap (fun q => q.site_id))

/-- Insert into a sorted list of days. -/
def insertSorted (x : Int) : List Int → List Int
  | [] => [x]
  | y :: ys => if x ≤ y then x :: y :: ys else y :: insertSorted x ys

/-- Sort a list of days ascending. -/
def sortInts (l : List Int) : List Int :=
  l.foldr insertSorted []

/-- The sorted distinct alarm days (`sorted(x.dt.strftime("%Y-%m-%d").unique())`,
a calendar day being the floor of a day-valued timestamp) of one site's
qualifying rows. -/
def siteDgDays (raw : List RawRow) (s : String) : List Int :=
  sortInts (dedupByAux id []
    (((dg10Qualifying raw).filter (fun q => decide (q.site_id = some s))).filterMap
      (fun q => q.date.map Rat.floor)))

/-- The `dg10_combined` table: one row per qualifying site with its day list. -/
def dg10Table (raw : List RawRow) : List (String × List Int) :=
  (dg10Sites raw).map (fun s => (s, siteDgDays raw s))

/-! ## Summary metrics (lines 312-393) -/

/-- `grid_availability_pct = ((1 - actual/total) * 100).clip(0,100).fillna(0)`
computed in float semantics. -/
def grid_availability_pct (actual total : ℚ) : ℚ :=
  (((((PFloat.fin 1).sub ((PFloat.fin actual).div (PFloat.fin total))).mul
      (PFloat.fin 100)).clip 0 100).fillna 0).toRat

/-- `pct_of_rh_difference = np.where(claimed_rh != 0, diff/claimed_rh*100, nan)`. -/
def pct_of_rh_difference (claimed diff : ℚ) : Option ℚ :=
  if claimed ≠ 0 then some (diff / claimed * 100) else none

/-- `matching_rh = np.where((abs(pct) <= 5) | (abs(diff) <= 5), "Yes", "No")`;
a missing percentage compares false. -/
def matching_rh (pct : Option ℚ) (diff : ℚ) : String :=
  if (match pct with
      | some p => decide (|p| ≤ 5)
      | none => false) || decide (|diff| ≤ 5)
  then "Yes" else "No"

/-- `justification` (`np.select`, first matching condition wins, default ""). -/
def justificationOf (mrh : String) (dg0 : Option Int) : String :=
  if mrh = "No" ∧ dg0.isSome = true then "False alarm"
  else if mrh = "Yes" ∧ dg0.isSome = true then "Justify continued DGRH>10"
  else ""

/-- `category_of_alarm` (`np.select`, default ""). -/
def categoryOf (mrh : String) (claimed g : ℚ) : String :=
  if mrh = "No" ∧ g < claimed then "Alarm not trigger"
  else if mrh = "No" ∧ claimed ≤ g then "False alarm Trigger"
  else ""

/-- One row of the summary table `df_out`. -/
structure SummaryRow where
  site_id : Option String
  site_key : Option String
  previous_refuelling_date : Option ℚ
  present_refuelling_date : Option ℚ
  claimed_rh : ℚ
  day_difference : Int
  total_available_hr : ℚ
  average_dgrh : ℚ
  genset_rh : ℚ
  mains_failed_hr : ℚ
  actual_mains_failed_hr : ℚ
  grid_availability_pct : ℚ
  rh_difference : ℚ
  pct_of_rh_difference : Option ℚ
  matching_rh : String
  dg_date_0 : Option Int
  justification : String
  category_of_alarm : String
deriving DecidableEq

/-- Assemble one summary row from a reference row, its zero-filled aggregates
and its (possibly missing) first qualifying DG date. -/
def mkRow (r : RefRow) (g m : ℚ) (dg0 : Option Int) : SummaryRow :=
  let actual := m + g
  let diff := r.claimed_rh - g
  let pct := pct_of_rh_difference r.claimed_rh diff
  let mrh := matching_rh pct diff
  { site_id := r.site_id
    site_key := refKey r
    previous_refuelling_date := r.previous_refuelling_date
    present_refuelling_date := r.present_refuelling_date
    claimed_rh := r.claimed_rh
    day_difference := day_difference r
    total_available_hr := total_available_hr r
    average_dgrh := average_dgrh r
    genset_rh := g
    mains_failed_hr := m
    actual_mains_failed_hr := actual
    grid_availability_pct := grid_availability_pct actual (total_available_hr r)
    rh_difference := diff
    pct_of_rh_difference := pct
    matching_rh := mrh
    dg_date_0 := dg0
    justification := justificationOf mrh dg0
    category_of_alarm := categoryOf mrh r.claimed_rh g }

/-- One left-merge step of `df_out.merge(dg10_combined, on="site_id",
how="left")`: the match is on the raw `site_id` strings, not on the canonical
key. -/
def dgFor (dgT : List (String × List Int)) (x : RefRow × ℚ × ℚ) : List SummaryRow :=
  match dgT.filter (fun e => decide ((some e.1 : Option String) = x.1.site_id)) with
  | [] => [mkRow x.1 x.2.1 x.2.2 none]
  | e :: es => (e :: es).map (fun e' => mkRow x.1 x.2.1 x.2.2 e'.2.head?)

/-- The full summary table `df_out`. -/
def summaryTable (alarms : List AlarmRow) (ref : List RefRow) : List SummaryRow :=
  (refWithAgg (taggedRows alarms ref) ref).flatMap
    (dgFor (dg10Table (rawTable alarms ref)))

/-! ## Duration-column detection (lines 249-267) -/

/-- One column of the concatenated alarm table, with its dtype flag and cell
values (`none` is `NaN`). -/
structure Column where
  name : String
  numericDtype : Bool
  values : List (Option ℚ)
deriving DecidableEq

/-- `possible_keywords` from the source. -/
def possible_keywords : List String :=
  ["duration", "dur", "hrs", "hours", "runtime", "run_time", "rh"]

/-- `keyword_matches`: columns whose lower-cased name contains a keyword. -/
def keyword_matches (cols : List Column) : List String :=
  (cols.filter (fun c =>
    possible_keywords.any (fun k => containsSub k.data (lowerChars c.name)))).map
    (fun c => c.name)

/-- `numeric_cols`: columns with a numeric dtype. -/
def numeric_cols (cols : List Column) : List Column :=
  cols.filter (fun c => c.numericDtype)

/-- `numeric_valid`: numeric columns with at least one non-null value and a
positive sum of absolute values. -/
def numeric_valid (cols : List Column) : List String :=
  ((numeric_cols cols).filter (fun c =>
    decide (0 < (c.values.filterMap id).length) &&
    decide (0 < ((c.values.filterMap id).map (fun v => |v|)).sum))).map
    (fun c => c.name)

/-- The candidate loop: `for c in keyword_matches + numeric_valid: if c not in
candidates: candidates.append(c)`. -/
def candidates (cols : List Column) : List String :=
  (keyword_matches cols ++ numeric_valid cols).foldl
    (fun acc c => if c ∈ acc then acc else acc ++ [c]) []

/-- `re.search(r"duration|duration_hrs|durationhr|dur_hrs", c, re.I)`: every
alternative is a literal, so the search is a substring test. -/
def isDurationName (c : String) : Bool :=
  containsSub "duration".data (lowerChars c) ||
  containsSub "duration_hrs".data (lowerChars c) ||
  containsSub "durationhr".data (lowerChars c) ||
  containsSub "dur_hrs".data (lowerChars c)

/-- The duration-column choice; `none` models the fatal configuration error
(`st.error` + `st.stop`) raised when no candidate exists. -/
def dur_col (cols : List Column) : Option String :=
  match candidates cols with
  | [] => none
  | [c] => some c
  | c :: _ :: _ =>
      match (candidates cols).find? isDurationName with
      | some preferred => some preferred
      | none => some c

/-! ## Specification-side descriptions used by the claims -/

/-- The generator-hours a site key receives in the summary: the per-key,
per-type duration sum, zero for the missing key (dropped by `groupby`). -/
def gValue (w : List TaggedRow) : Option String → ℚ
  | some k => sumDur w k "G"
  | none => 0

/-- The mains-failure-hours a site key receives in the summary. -/
def mValue (w : List TaggedRow) : Option String → ℚ
  | some k => sumDur w k "M"
  | none => 0

/-- The `dg_date_0` value a summary row receives from the left merge on the
raw `site_id`. -/
def dgLookup (dgT : List (String × List Int)) (sid : Option String) : Option Int :=
  match dgT.filter (fun e => decide ((some e.1 : Option String) = sid)) with
  | [] => none
  | e :: _ => e.2.head?

/-- Union of two column lists preserving first-seen order, deduplicated
(spec wording of §4.2). -/
def unionFirstSeen (xs ys : List String) : List String :=
  dedupByAux id [] (xs ++ ys)

/-- The duration-column selection as the specification words it: the
deduplicated first-seen-ordered union of keyword-named columns and valid
numeric columns; a unique candidate is taken, several prefer a
duration-patterned name and fall back to the first, none is an error. -/
def dur_col_spec (cols : List Column) : Option String :=
  if (unionFirstSeen (keyword_matches cols) (numeric_valid cols)).length = 0 then none
  else if (unionFirstSeen (keyword_matches cols) (numeric_valid cols)).length = 1 then
    (unionFirstSeen (keyword_matches cols) (numeric_valid cols)).head?
  else
    match (unionFirstSeen (keyword_matches cols) (numeric_valid cols)).find? isDurationName with
    | some p => some p
    | none => (unionFirstSeen (keyword_matches cols) (numeric_valid cols)).head?

/-! ## Concrete inputs used by the witnesses and counterexamples -/

/-- An alarm whose slogan matches both the mains and the generator pattern. -/
def a1c : AlarmRow := ⟨some "S1", some "mains dg", some 3, 2, "f"⟩

/-- A reference row whose window contains the `a1c` alarm. -/
def r1c : RefRow := ⟨some "S1", some 1, some 9, 0⟩

/-- Alarm table holding only `a1c`. -/
def exA1 : List AlarmRow := [a1c]

/-- Reference table holding only `r1c`. -/
def exR1 : List RefRow := [r1c]

/-- The tagged row the pipeline produces from `exA1`/`exR1`. -/
def t1c : TaggedRow :=
  { site := some "S1", alarm_slogan := some "mains dg", alarm_raised_date := some 3
    duration_hrs := 2, source_file := "f", site_key := some "S1", mg := some "G" }

/-- An alarm with a negative duration, dated exactly on a zero-length
refuelling window. -/
def exA5 : List AlarmRow := [⟨some "S1", some "genset run", some 5, -3, "f"⟩]

/-- A reference row whose two refuelling dates coincide, so
`total_available_hr = 0`. -/
def exR5 : List RefRow := [⟨some "S1", some 5, some 5, 0⟩]

/-- The summary row the pipeline produces from `exA5`/`exR5`. -/
def s5c : SummaryRow :=
  { site_id := some "S1", site_key := some "S1"
    previous_refuelling_date := some 5, present_refuelling_date := some 5
    claimed_rh := 0, day_difference := 0, total_available_hr := 0, average_dgrh := 0
    genset_rh := -3, mains_failed_hr := 0, actual_mains_failed_hr := -3
    grid_availability_pct := 100, rh_difference := 3, pct_of_rh_difference := none
    matching_rh := "Yes", dg_date_0 := none, justification := "", category_of_alarm := "" }

/-- An alarm whose raw site string `AB_1` normalizes to the same canonical
key as the reference's raw site string `AB-1`, with a ≥ 10 h generator run. -/
def exA10 : List AlarmRow := [⟨some "AB_1", some "dg run", some 5, 12, "f"⟩]

/-- A reference row whose raw site id differs textually from the alarm's. -/
def exR10 : List RefRow := [⟨some "AB-1", some 0, some 20, 100⟩]

/-- The summary row the pipeline produces from `exA10`/`exR10`. -/
def s10c : SummaryRow :=
  { site_id := some "AB-1", site_key := some "AB_1"
    previous_refuelling_date := some 0, present_refuelling_date := some 20
    claimed_rh := 100, day_difference := 20, total_available_hr := 480, average_dgrh := 5
    genset_rh := 12, mains_failed_hr := 0, actual_mains_failed_hr := 12
    grid_availability_pct := 195/2, rh_difference := 88, pct_of_rh_difference := some 88
    matching_rh := "No", dg_date_0 := none, justification := ""
    category_of_alarm := "Alarm not trigger" }

/-- A reference row whose present refuelling date precedes the previous one. -/
def r4c : RefRow := ⟨some "S", some 10, some 5, 7⟩

/-- A reference row with an ordinary positive, fractional date difference. -/
def r4w : RefRow := ⟨some "S", some 2, some (15/2), 7⟩

/-! ## Lemmas about first-occurrence deduplication -/

theorem dedupByAux_nil {α β : Type} [DecidableEq β] (f : α → β) (seen : List β) :
    dedupByAux f seen [] = [] := rfl

theorem dedupByAux_cons {α β : Type} [DecidableEq β] (f : α → β) (seen : List β)
    (x : α) (xs : List α) :
    dedupByAux f seen (x :: xs) =
      if f x ∈ seen then dedupByAux f seen xs
      else x :: dedupByAux f (f x :: seen) xs := rfl

theorem mem_map_dedupByAux {α β : Type} [DecidableEq β] (f : α → β) :
    ∀ (l : List α) (seen : List β) (k : β),
      k ∈ (dedupByAux f seen l).map f ↔ (k ∉ seen ∧ k ∈ l.map f) := by
  intro l
  induction l with
  | nil => intro seen k; simp [dedupByAux_nil]
  | cons x xs ih =>
      intro seen k
      rw [dedupByAux_cons]
      by_cases hx : f x ∈ seen
      · rw [if_pos hx]
        by_cases hk : k = f x
        · subst hk
          simp [ih, hx]
        · simp [ih, hk]
      · rw [if_neg hx]
        by_cases hk : k = f x
        · subst hk
          simp [ih, hx]
        · simp [ih, hk]

theorem nodup_map_dedupByAux {α β : Type} [DecidableEq β] (f : α → β) :
    ∀ (l : List α) (seen : List β), ((dedupByAux f seen l).map f).Nodup := by
  intro l
  induction l with
  | nil => intro seen; simp [dedupByAux_nil]
  | cons x xs ih =>
      intro seen
      rw [dedupByAux_cons]
      by_cases hx : f x ∈ seen
      · rw [if_pos hx]; exact ih seen
      · rw [if_neg hx]
        simp only [List.map_cons, List.nodup_cons]
        refine ⟨fun hmem => ?_, ih _⟩
        rcases (mem_map_dedupByAux f xs (f x :: seen) (f x)).mp hmem with ⟨h1, _⟩
        exact h1 (List.mem_cons_self _ _)

theorem mem_of_mem_dedupByAux {α β : Type} [DecidableEq β] (f : α → β) :
    ∀ (l : List α) (seen : List β) (x : α), x ∈ dedupByAux f seen l → x ∈ l := by
  intro l
  induction l with
  | nil => intro seen x h; simp [dedupByAux_nil] at h
  | cons y ys ih =>
      intro seen x h
      rw [dedupByAux_cons] at h
      by_cases hy : f y ∈ seen
      · rw [if_pos hy] at h
        exact List.mem_cons_of_mem _ (ih _ _ h)
      · rw [if_neg hy] at h
        rcases List.mem_cons.mp h with rfl | h2
        · exact List.mem_cons_self _ _
        · exact List.mem_cons_of_mem _ (ih _ _ h2)

theorem mem_dedupByAux_id {β : Type} [DecidableEq β] (l seen : List β) (k : β) :
    k ∈ dedupByAux id seen l ↔ (k ∉ seen ∧ k ∈ l) := by
  have h := mem_map_dedupByAux (id : β → β) l seen k
  simpa using h

theorem dedupByAux_congr_seen {α β : Type} [DecidableEq β] (f : α → β) :
    ∀ (l : List α) (s1 s2 : List β), (∀ y, y ∈ s1 ↔ y ∈ s2) →
      dedupByAux f s1 l = dedupByAux f s2 l := by
  intro l
  induction l with
  | nil => intro s1 s2 _; rfl
  | cons x xs ih =>
      intro s1 s2 h
      rw [dedupByAux_cons, dedupByAux_cons]
      by_cases hx : f x ∈ s1
      · rw [if_pos hx, if_pos ((h _).mp hx)]
        exact ih s1 s2 h
      · rw [if_neg hx, if_neg (fun hc => hx ((h _).mpr hc))]
        rw [ih (f x :: s1) (f x :: s2) (fun y => by simp only [List.mem_cons, h y])]

theorem foldl_dedup_eq :
    ∀ (l acc : List String),
      l.foldl (fun acc c => if c ∈ acc then acc else acc ++ [c]) acc =
        acc ++ dedupByAux id acc l := by
  intro l
  induction l with
  | nil => intro acc; simp [dedupByAux_nil]
  | cons x xs ih =>
      intro acc
      rw [List.foldl_cons]
      by_cases hx : x ∈ acc
      · rw [if_pos hx, ih, dedupByAux_cons]
        simp only [id_eq]
        rw [if_pos hx]
      · rw [if_neg hx, ih, dedupByAux_cons]
        simp only [id_eq]
        rw [if_neg hx]
        rw [dedupByAux_congr_seen id xs (acc ++ [x]) (x :: acc)
          (fun y => by simp [List.mem_append, List.mem_cons, or_comm])]
        simp

/-! ## Unique-key filters and single-row merges -/

theorem filter_key_cases {α β : Type} [DecidableEq β] (g : α → β) (v : β) :
    ∀ l : List α, (l.map g).Nodup →
      l.filter (fun e => decide (g e = v)) = [] ∨
      ∃ e, l.filter (fun e => decide (g e = v)) = [e] ∧ g e = v ∧ e ∈ l := by
  intro l
  induction l with
  | nil => intro _; exact Or.inl rfl
  | cons x xs ih =>
      intro hnd
      simp only [List.map_cons, List.nodup_cons] at hnd
      obtain ⟨hx, hnd2⟩ := hnd
      by_cases hgx : g x = v
      · right
        refine ⟨x, ?_, hgx, List.mem_cons_self _ _⟩
        rw [List.filter_cons_of_pos (by simp [hgx])]
        have hnil : xs.filter (fun e => decide (g e = v)) = [] := by
          rw [List.filter_eq_nil_iff]
          intro a ha hpa
          have hga : g a = v := by simpa using hpa
          exact hx (List.mem_map.mpr ⟨a, ha, hga.trans hgx.symm⟩)
        rw [hnil]
      · rw [List.filter_cons_of_neg (by simpa using hgx)]
        rcases ih hnd2 with h | ⟨e, he, hgv, hmem⟩
        · exact Or.inl h
        · exact Or.inr ⟨e, he, hgv, List.mem_cons_of_mem _ hmem⟩

theorem flatMap_eq_map {α β : Type} (l : List α) (f : α → List β) (u : α → β)
    (H : ∀ a ∈ l, f a = [u a]) : l.flatMap f = l.map u := by
  induction l with
  | nil => rfl
  | cons x xs ih =>
      rw [List.flatMap_cons, H x (List.mem_cons_self _ _), List.map_cons,
        ih (fun a ha => H a (List.mem_cons_of_mem _ ha))]
      rfl

theorem map_flatMap_eq_map {α β γ : Type} (l : List α) (u : α → β) (g : β → List γ)
    (v : α → γ) (H : ∀ a ∈ l, g (u a) = [v a]) : (l.map u).flatMap g = l.map v := by
  induction l with
  | nil => rfl
  | cons x xs ih =>
      rw [List.map_cons, List.flatMap_cons, H x (List.mem_cons_self _ _), List.map_cons,
        ih (fun a ha => H a (List.mem_cons_of_mem _ ha))]
      rfl

/-! ## Lemmas about aggregation -/

theorem sumDur_cons (t : TaggedRow) (ts : List TaggedRow) (k tag : String) :
    sumDur (t :: ts) k tag =
      (if t.site_key = some k ∧ t.mg = some tag then t.duration_hrs else 0) +
        sumDur ts k tag := by
  unfold sumDur
  by_cases hp : t.site_key = some k ∧ t.mg = some tag
  · rw [List.filter_cons_of_pos (by simp [hp.1, hp.2])]
    simp [hp]
  · rw [List.filter_cons_of_neg
      (by simp only [Bool.and_eq_true, decide_eq_true_eq]; exact hp)]
    simp [hp]

theorem sumDur_eq_zero (w : List TaggedRow) (k tag : String)
    (H : ∀ t ∈ w, ¬(t.site_key = some k ∧ t.mg = some tag)) : sumDur w k tag = 0 := by
  unfold sumDur
  rw [List.filter_eq_nil_iff.mpr ?_]
  · rfl
  · intro t ht hp
    simp only [Bool.and_eq_true, decide_eq_true_eq] at hp
    exact H t ht hp

theorem sumDur_filter_isSome (w : List TaggedRow) (k tag : String) :
    sumDur w k tag = sumDur (w.filter fun t => t.mg.isSome) k tag := by
  induction w with
  | nil => rfl
  | cons t ts ih =>
      by_cases hmg : t.mg.isSome = true
      · rw [List.filter_cons, if_pos hmg, sumDur_cons, sumDur_cons, ih]
      · rw [List.filter_cons, if_neg hmg, sumDur_cons, ih]
        have hnp : ¬(t.site_key = some k ∧ t.mg = some tag) := by
          rintro ⟨_, h2⟩
          exact hmg (by simp [h2])
        rw [if_neg hnp, zero_add]

theorem mem_aggKeys (w : List TaggedRow) (k : String) :
    k ∈ aggKeys w ↔ ∃ t ∈ w, t.site_key = some k ∧ t.mg.isSome = true := by
  unfold aggKeys
  rw [mem_dedupByAux_id]
  simp only [List.not_mem_nil, not_false_iff, true_and, List.mem_filterMap]
  constructor
  · rintro ⟨t, ht, hmatch⟩
    refine ⟨t, ht, ?_⟩
    rcases hsk : t.site_key with _ | k2 <;> rcases hmg : t.mg with _ | m2 <;>
      rw [hsk, hmg] at hmatch <;> simp_all
  · rintro ⟨t, ht, h1, h2⟩
    refine ⟨t, ht, ?_⟩
    rcases hmg : t.mg with _ | m2
    · rw [hmg] at h2; simp at h2
    · rw [h1]

theorem aggKeys_nodup (w : List TaggedRow) : (aggKeys w).Nodup := by
  have h := nodup_map_dedupByAux (id : String → String)
    (w.filterMap fun t =>
      match t.site_key, t.mg with
      | some k, some _ => some k
      | _, _ => none) []
  simpa using h

theorem aggTable_keys (w : List TaggedRow) :
    (aggTable w).map (fun e => (some e.1 : Option String)) =
      (aggKeys w).map (fun k => some k) := by
  rw [aggTable, List.map_map]
  rfl

theorem aggTable_keys_nodup (w : List TaggedRow) :
    ((aggTable w).map (fun e => (some e.1 : Option String))).Nodup := by
  rw [aggTable_keys]
  exact List.Nodup.map (Option.some_injective String) (aggKeys_nodup w)

theorem sumDur_eq_zero_of_not_aggKey (w : List TaggedRow) (k tag : String)
    (hk : k ∉ aggKeys w) : sumDur w k tag = 0 := by
  apply sumDur_eq_zero
  rintro t ht ⟨h1, h2⟩
  exact hk ((mem_aggKeys w k).mpr ⟨t, ht, h1, by simp [h2]⟩)

theorem aggFor_shape (w : List TaggedRow) (r : RefRow) :
    aggFor w r = [(r, gValue w (refKey r), mValue w (refKey r))] := by
  unfold aggFor
  rcases filter_key_cases (fun e => (some e.1 : Option String)) (refKey r) (aggTable w)
      (aggTable_keys_nodup w) with hnil | ⟨e, he, hkey, hmem⟩
  · rw [hnil]
    rcases hrk : refKey r with _ | k
    · rfl
    · have hk : k ∉ aggKeys w := by
        intro hk
        have hmem2 : (k, sumDur w k "G", sumDur w k "M") ∈ aggTable w :=
          List.mem_map.mpr ⟨k, hk, rfl⟩
        have := List.filter_eq_nil_iff.mp hnil _ hmem2
        simp [hrk] at this
      simp only [gValue, mValue]
      rw [sumDur_eq_zero_of_not_aggKey w k "G" hk, sumDur_eq_zero_of_not_aggKey w k "M" hk]
  · rw [he]
    rcases List.mem_map.mp hmem with ⟨k, hk, rfl⟩
    simp only [List.map_cons, List.map_nil]
    have hrk : refKey r = some k := hkey.symm
    rw [hrk]
    rfl

theorem refWithAgg_eq (w : List TaggedRow) (ref : List RefRow) :
    refWithAgg w ref =
      (dedupRef ref).map (fun r => (r, gValue w (refKey r), mValue w (refKey r))) := by
  unfold refWithAgg
  exact flatMap_eq_map _ _ _ (fun r _ => aggFor_shape w r)

/-! ## Lemmas about the DG ≥ 10 merge -/

theorem dg10Sites_nodup (raw : List RawRow) : (dg10Sites raw).Nodup := by
  have h := nodup_map_dedupByAux (id : String → String)
    ((dg10Qualifying raw).filterMap fun q => q.site_id) []
  simpa using h

theorem mem_dg10Sites (raw : List RawRow) (s : String) :
    s ∈ dg10Sites raw ↔ ∃ q ∈ dg10Qualifying raw, q.site_id = some s := by
  unfold dg10Sites
  rw [mem_dedupByAux_id]
  simp [List.mem_filterMap]

theorem dg10Table_keys_nodup (raw : List RawRow) :
    ((dg10Table raw).map (fun e => (some e.1 : Option String))).Nodup := by
  rw [dg10Table, List.map_map]
  exact List.Nodup.map
    (fun a b h => Option.some.inj h) (dg10Sites_nodup raw)

theorem dgFor_shape (raw : List RawRow) (x : RefRow × ℚ × ℚ) :
    dgFor (dg10Table raw) x =
      [mkRow x.1 x.2.1 x.2.2 (dgLookup (dg10Table raw) x.1.site_id)] := by
  unfold dgFor dgLookup
  rcases filter_key_cases (fun e => (some e.1 : Option String)) x.1.site_id (dg10Table raw)
      (dg10Table_keys_nodup raw) with hnil | ⟨e, he, _, _⟩
  · rw [hnil]
  · rw [he]
    rfl

theorem dgLookup_eq_none (raw : List RawRow) (sid : Option String)
    (H : ∀ q ∈ dg10Qualifying raw, q.site_id ≠ sid) :
    dgLookup (dg10Table raw) sid = none := by
  unfold dgLookup
  have hnil : (dg10Table raw).filter
      (fun e => decide ((some e.1 : Option String) = sid)) = [] := by
    rw [List.filter_eq_nil_iff]
    intro e he hp
    simp only [decide_eq_true_eq] at hp
    rcases List.mem_map.mp (by rw [dg10Table] at he; exact he) with ⟨s, hs, rfl⟩
    rcases (mem_dg10Sites raw s).mp hs with ⟨q, hq, hqs⟩
    exact H q hq (by rw [hqs]; exact hp)
  rw [hnil]

/-! ## The summary table as a per-reference-row map -/

theorem summaryTable_eq (alarms : List AlarmRow) (ref : List RefRow) :
    summaryTable alarms ref =
      (dedupRef ref).map (fun r =>
        mkRow r (gValue (taggedRows alarms ref) (refKey r))
          (mValue (taggedRows alarms ref) (refKey r))
          (dgLookup (dg10Table (rawTable alarms ref)) r.site_id)) := by
  unfold summaryTable
  rw [refWithAgg_eq]
  exact map_flatMap_eq_map (dedupRef ref)
    (fun r => (r, gValue (taggedRows alarms ref) (refKey r),
      mValue (taggedRows alarms ref) (refKey r)))
    (dgFor (dg10Table (rawTable alarms ref)))
    (fun r =>
      mkRow r (gValue (taggedRows alarms ref) (refKey r))
        (mValue (taggedRows alarms ref) (refKey r))
        (dgLookup (dg10Table (rawTable alarms ref)) r.site_id))
    (fun r _ => dgFor_shape (rawTable alarms ref) _)

theorem mem_summaryTable (alarms : List AlarmRow) (ref : List RefRow) (s : SummaryRow)
    (hs : s ∈ summaryTable alarms ref) :
    ∃ r ∈ dedupRef ref,
      s = mkRow r (gValue (taggedRows alarms ref) (refKey r))
            (mValue (taggedRows alarms ref) (refKey r))
            (dgLookup (dg10Table (rawTable alarms ref)) r.site_id) := by
  rw [summaryTable_eq] at hs
  rcases List.mem_map.mp hs with ⟨r, hr, rfl⟩
  exact ⟨r, hr, rfl⟩

theorem summary_keys (alarms : List AlarmRow) (ref : List RefRow) :
    (summaryTable alarms ref).map (fun s => s.site_key) = (dedupRef ref).map refKey := by
  rw [summaryTable_eq, List.map_map]
  rfl

theorem dedupRef_keys_nodup (ref : List RefRow) : ((dedupRef ref).map refKey).Nodup :=
  nodup_map_dedupByAux refKey ref []

theorem countP_key_of_nodup {β : Type} [DecidableEq β] (k : β) :
    ∀ l : List β, l.Nodup →
      (k ∈ l → l.countP (fun x => decide (x = k)) = 1) ∧
      (k ∉ l → l.countP (fun x => decide (x = k)) = 0) := by
  intro l
  induction l with
  | nil =>
      intro _
      exact ⟨fun h => absurd h (List.not_mem_nil k), fun _ => rfl⟩
  | cons x xs ih =>
      intro hnd
      rw [List.nodup_cons] at hnd
      obtain ⟨hx, hnd2⟩ := hnd
      constructor
      · intro hk
        rw [List.countP_cons]
        rcases List.mem_cons.mp hk with rfl | hk2
        · rw [(ih hnd2).2 hx]
          simp
        · rw [(ih hnd2).1 hk2, if_neg ?_]
          intro he
          simp only [decide_eq_true_eq] at he
          exact hx (he ▸ hk2)
      · intro hk
        rw [List.countP_cons]
        have hx2 : k ∉ xs := fun h => hk (List.mem_cons_of_mem _ h)
        have hxk : ¬(x = k) := fun he => hk (List.mem_cons.mpr (Or.inl he.symm))
        rw [(ih hnd2).2 hx2, if_neg (by simpa using hxk)]

/-! ## Lemmas about windowing and tagging -/

theorem mem_windowed (alarms : List AlarmRow) (ref : List RefRow) (a : AlarmRow) (r : RefRow) :
    (a, r) ∈ windowed alarms ref ↔
      a ∈ alarms ∧ r ∈ dedupRef ref ∧ refKey r = alarmKey a ∧
      ∃ t p q : ℚ, a.alarm_raised_date = some t ∧ r.previous_refuelling_date = some p ∧
        r.present_refuelling_date = some q ∧ p ≤ t ∧ t ≤ q := by
  unfold windowed innerMerge
  rw [List.mem_filter, List.mem_flatMap]
  constructor
  · rintro ⟨⟨a2, ha2, hmem⟩, hwin⟩
    rcases List.mem_map.mp hmem with ⟨r2, hr2, heq⟩
    rw [Prod.mk.injEq] at heq
    rw [heq.1] at ha2
    rw [heq.1, heq.2] at hr2
    rcases List.mem_filter.mp hr2 with ⟨hr, hkey⟩
    refine ⟨ha2, hr, by simpa using hkey, ?_⟩
    unfold inWindow optLe at hwin
    rcases hd : a.alarm_raised_date with _ | t <;> rw [hd] at hwin
    · rcases hp : r.previous_refuelling_date with _ | p <;> rw [hp] at hwin <;> simp at hwin
    · rcases hp : r.previous_refuelling_date with _ | p <;> rw [hp] at hwin
      · simp at hwin
      · rcases hq : r.present_refuelling_date with _ | q <;> rw [hq] at hwin
        · simp at hwin
        · simp only [Bool.and_eq_true, decide_eq_true_eq] at hwin
          exact ⟨t, p, q, rfl, rfl, rfl, hwin.1, hwin.2⟩
  · rintro ⟨ha, hr, hkey, t, p, q, hd, hp, hq, h1, h2⟩
    refine ⟨⟨a, ha, ?_⟩, ?_⟩
    · exact List.mem_map.mpr ⟨r, List.mem_filter.mpr ⟨hr, by simpa using hkey⟩, rfl⟩
    · unfold inWindow optLe
      rw [hd, hp, hq]
      simp [h1, h2]

theorem taggedRows_mg (alarms : List AlarmRow) (ref : List RefRow) (t : TaggedRow)
    (ht : t ∈ taggedRows alarms ref) : t.mg = tagOf t.alarm_slogan := by
  unfold taggedRows at ht
  rcases List.mem_map.mp ht with ⟨p, _, rfl⟩
  rfl

/-! ## Closed form of the grid-availability computation -/

theorem grid_pct_eq (a t : ℚ) :
    grid_availability_pct a t =
      if t = 0 then (if a < 0 then 100 else 0)
      else max 0 (min 100 ((1 - a / t) * 100)) := by
  unfold grid_availability_pct
  by_cases ht : t = 0
  · subst ht
    rw [if_pos rfl]
    by_cases ha0 : a = 0
    · subst ha0
      norm_num [PFloat.div, PFloat.sub, PFloat.mul, PFloat.clip, PFloat.fillna, PFloat.toRat]
    · by_cases hapos : 0 < a
      · rw [if_neg (by linarith)]
        norm_num [PFloat.div, ha0, hapos, PFloat.sub, PFloat.mul, PFloat.clip,
          PFloat.fillna, PFloat.toRat]
      · have haneg : a < 0 := lt_of_le_of_ne (not_lt.mp hapos) ha0
        rw [if_pos haneg]
        norm_num [PFloat.div, ha0, hapos, PFloat.sub, PFloat.mul, PFloat.clip,
          PFloat.fillna, PFloat.toRat]
  · rw [if_neg ht]
    norm_num [PFloat.div, ht, PFloat.sub, PFloat.mul, PFloat.clip, PFloat.fillna, PFloat.toRat]

/-- Characterization of the matching verdict. -/
theorem matching_rh_yes_iff (pct : Option ℚ) (diff : ℚ) :
    matching_rh pct diff = "Yes" ↔ ((∃ p, pct = some p ∧ |p| ≤ 5) ∨ |diff| ≤ 5) := by
  unfold matching_rh
  cases pct with
  | none => by_cases h : |diff| ≤ 5 <;> simp [h]
  | some p => by_cases h1 : |p| ≤ 5 <;> by_cases h2 : |diff| ≤ 5 <;> simp [h1, h2]

/-! ## Projections of an assembled summary row -/

theorem mkRow_site_id (r : RefRow) (g m : ℚ) (dg0 : Option Int) :
    (mkRow r g m dg0).site_id = r.site_id := rfl

theorem mkRow_site_key (r : RefRow) (g m : ℚ) (dg0 : Option Int) :
    (mkRow r g m dg0).site_key = refKey r := rfl

theorem mkRow_claimed (r : RefRow) (g m : ℚ) (dg0 : Option Int) :
    (mkRow r g m dg0).claimed_rh = r.claimed_rh := rfl

theorem mkRow_genset (r : RefRow) (g m : ℚ) (dg0 : Option Int) :
    (mkRow r g m dg0).genset_rh = g := rfl

theorem mkRow_mains (r : RefRow) (g m : ℚ) (dg0 : Option Int) :
    (mkRow r g m dg0).mains_failed_hr = m := rfl

theorem mkRow_actual (r : RefRow) (g m : ℚ) (dg0 : Option Int) :
    (mkRow r g m dg0).actual_mains_failed_hr = m + g := rfl

theorem mkRow_total (r : RefRow) (g m : ℚ) (dg0 : Option Int) :
    (mkRow r g m dg0).total_available_hr = total_available_hr r := rfl

theorem mkRow_grid (r : RefRow) (g m : ℚ) (dg0 : Option Int) :
    (mkRow r g m dg0).grid_availability_pct =
      grid_availability_pct (m + g) (total_available_hr r) := rfl

theorem mkRow_rhdiff (r : RefRow) (g m : ℚ) (dg0 : Option Int) :
    (mkRow r g m dg0).rh_difference = r.claimed_rh - g := rfl

theorem mkRow_pct (r : RefRow) (g m : ℚ) (dg0 : Option Int) :
    (mkRow r g m dg0).pct_of_rh_difference =
      pct_of_rh_difference r.claimed_rh (r.claimed_rh - g) := rfl

theorem mkRow_matching (r : RefRow) (g m : ℚ) (dg0 : Option Int) :
    (mkRow r g m dg0).matching_rh =
      matching_rh (pct_of_rh_difference r.claimed_rh (r.claimed_rh - g))
        (r.claimed_rh - g) := rfl

theorem mkRow_dg0 (r : RefRow) (g m : ℚ) (dg0 : Option Int) :
    (mkRow r g m dg0).dg_date_0 = dg0 := rfl

theorem mkRow_just (r : RefRow) (g m : ℚ) (dg0 : Option Int) :
    (mkRow r g m dg0).justification =
      justificationOf
        (matching_rh (pct_of_rh_difference r.claimed_rh (r.claimed_rh - g))
          (r.claimed_rh - g)) dg0 := rfl

/-! ## Claims -/

/-- C1 (counterexample): the claim says a windowed alarm whose description
matches both a mains pattern and a generator pattern is tagged mains ("M").
The slogan "mains dg" matches both pattern sets, yet the pipeline tags the
record "G", because the generator assignment runs after (and overwrites) the
mains assignment. -/
theorem c1_counterexample :
    sloganHasMains (some "mains dg") = true ∧
    sloganHasGen (some "mains dg") = true ∧
    (taggedRows exA1 exR1).map (fun t => t.mg) = [some "G"] ∧
    (some "G" : Option String) ≠ some "M" := by
  decide

/-- C1 (amended): for every windowed alarm record whose description matches
at least one mains-failure pattern and at least one generator-running pattern,
the classifier assigns type generator ("G"): the generator assignment is
evaluated second and overwrites the mains tag. -/
theorem c1_amended (alarms : List AlarmRow) (ref : List RefRow) (t : TaggedRow)
    (ht : t ∈ taggedRows alarms ref)
    (_hm : sloganHasMains t.alarm_slogan = true)
    (hg : sloganHasGen t.alarm_slogan = true) : t.mg = some "G" := by
  rw [taggedRows_mg alarms ref t ht]
  simp [tagOf, hg]

/-- C1 witness: the amended theorem applied to the concrete both-pattern row. -/
theorem c1_amended_witness : t1c.mg = some "G" :=
  c1_amended exA1 exR1 t1c (by decide) (by decide) (by decide)

/-- C2: every canonical site key present in the deduplicated reference table
appears exactly once as a row of the summary table (even when no alarm
matched it), and no summary row exists for a key absent from the reference
table. -/
theorem c2_join_completeness (alarms : List AlarmRow) (ref : List RefRow) (k : String) :
    (some k ∈ (dedupRef ref).map refKey →
      (summaryTable alarms ref).countP (fun s => decide (s.site_key = some k)) = 1) ∧
    (some k ∉ (dedupRef ref).map refKey →
      (summaryTable alarms ref).countP (fun s => decide (s.site_key = some k)) = 0) := by
  have hmap : (summaryTable alarms ref).countP (fun s => decide (s.site_key = some k)) =
      ((dedupRef ref).map refKey).countP (fun x => decide (x = some k)) := by
    rw [← summary_keys alarms ref, List.countP_map]
    rfl
  rw [hmap]
  exact countP_key_of_nodup (some k) _ (dedupRef_keys_nodup ref)

/-- C2 witness: the key "AB_1" is in the reference table of the concrete run
and owns exactly one summary row. -/
theorem c2_witness :
    (summaryTable exA10 exR10).countP (fun s => decide (s.site_key = some "AB_1")) = 1 :=
  (c2_join_completeness exA10 exR10 "AB_1").1 (by decide)

/-- C3: an alarm record is retained by the window filter (paired with a
reference row) exactly when its canonical site key matches that reference
row and its parsed timestamp lies in the closed interval bounded by the
site's two parsed refuelling dates; a missing timestamp or missing date can
never satisfy the right-hand side, so such rows are excluded. -/
theorem c3_window_filter (alarms : List AlarmRow) (ref : List RefRow)
    (a : AlarmRow) (r : RefRow) :
    (a, r) ∈ windowed alarms ref ↔
      a ∈ alarms ∧ r ∈ dedupRef ref ∧ refKey r = alarmKey a ∧
      ∃ t p q : ℚ, a.alarm_raised_date = some t ∧ r.previous_refuelling_date = some p ∧
        r.present_refuelling_date = some q ∧ p ≤ t ∧ t ≤ q :=
  mem_windowed alarms ref a r

/-- C3 witness: the concrete in-window alarm is retained. -/
theorem c3_witness : (a1c, r1c) ∈ windowed exA1 exR1 :=
  (c3_window_filter exA1 exR1 a1c r1c).mpr
    ⟨by decide, by decide, by decide, 3, 1, 9, rfl, rfl, rfl, by norm_num, by norm_num⟩

/-- C4 (counterexample): the claim says the derived day-count is a
non-negative integer with negative date pairs clamped to zero.  For a
reference row with present = day 5 before previous = day 10 the code computes
day_difference = -5, which is negative, not zero. -/
theorem c4_counterexample :
    day_difference r4c = -5 ∧ ¬(0 ≤ day_difference r4c) :=
  of_decide_eq_true (by with_unfolding_all rfl)

/-- C4 (amended): the day-count is the floor of (present − previous) when
both dates parsed (and may be negative when present precedes previous), zero
when either date is missing; total_available_hr is day_difference × 24 and
the average claimed RH-per-day is claimed_rh / day_difference when
day_difference is positive and zero otherwise (in particular zero when
day_difference is zero). -/
theorem c4_amended (r : RefRow) :
    (∀ p q : ℚ, r.present_refuelling_date = some p → r.previous_refuelling_date = some q →
      day_difference r = Rat.floor (p - q)) ∧
    ((r.present_refuelling_date = none ∨ r.previous_refuelling_date = none) →
      day_difference r = 0) ∧
    total_available_hr r = (day_difference r : ℚ) * 24 ∧
    average_dgrh r =
      (if 0 < day_difference r then r.claimed_rh / (day_difference r : ℚ) else 0) := by
  refine ⟨?_, ?_, rfl, rfl⟩
  · intro p q hp hq
    unfold day_difference optSub
    rw [hp, hq]
    rfl
  · intro h
    rcases h with h | h
    · unfold day_difference optSub
      rw [h]
      rfl
    · unfold day_difference optSub
      rw [h]
      rcases r.present_refuelling_date with _ | p <;> rfl

/-- C4 witness: the amended theorem applied to a concrete fractional pair. -/
theorem c4_amended_witness : day_difference r4w = Rat.floor ((15 / 2 : ℚ) - 2) :=
  (c4_amended r4w).1 (15 / 2) 2 rfl rfl

/-- C5 (counterexample): the claim says grid_availability_pct is 0 whenever
total_available_hr is 0.  A summary row produced from a zero-length window
and a negative summed duration has total_available_hr = 0 but
grid_availability_pct = 100 (float semantics: a negative value divided by
zero is -inf, 1 − (-inf) = +inf, clipped to the upper bound). -/
theorem c5_counterexample :
    (summaryTable exA5 exR5).map
      (fun s => (s.total_available_hr, s.grid_availability_pct)) = [(0, 100)] ∧
    (100 : ℚ) ≠ 0 :=
  of_decide_eq_true (by with_unfolding_all rfl)

/-- C5 (amended): for every summary row, grid_availability_pct equals the
clamp of (1 − actual/total) × 100 to [0, 100] when total_available_hr is
non-zero; when total_available_hr is zero the result is 0 except that a
negative actual_mains_failed_hr yields 100. -/
theorem c5_amended (alarms : List AlarmRow) (ref : List RefRow) (s : SummaryRow)
    (hs : s ∈ summaryTable alarms ref) :
    s.grid_availability_pct =
      if s.total_available_hr = 0 then (if s.actual_mains_failed_hr < 0 then 100 else 0)
      else max 0 (min 100 ((1 - s.actual_mains_failed_hr / s.total_available_hr) * 100)) := by
  rcases mem_summaryTable alarms ref s hs with ⟨r, _, rfl⟩
  simp only [mkRow_grid, mkRow_total, mkRow_actual]
  rw [grid_pct_eq]

/-- C5 witness: the amended theorem applied to the concrete zero-window row. -/
theorem c5_amended_witness :
    s5c.grid_availability_pct =
      if s5c.total_available_hr = 0 then (if s5c.actual_mains_failed_hr < 0 then 100 else 0)
      else max 0
        (min 100 ((1 - s5c.actual_mains_failed_hr / s5c.total_available_hr) * 100)) :=
  c5_amended exA5 exR5 s5c (of_decide_eq_true (by with_unfolding_all rfl))

/-- C6: for every summary row, rh_difference is claimed_rh minus
generator-hours, pct_of_rh_difference is rh_difference/claimed_rh × 100 when
claimed_rh is non-zero and missing otherwise, matching_rh is "Yes" exactly
when the percentage exists and is within ±5 or the absolute difference is
within 5, and with claimed_rh zero the verdict reduces to the absolute test
alone. -/
theorem c6_matching_rh (alarms : List AlarmRow) (ref : List RefRow) (s : SummaryRow)
    (hs : s ∈ summaryTable alarms ref) :
    s.rh_difference = s.claimed_rh - s.genset_rh ∧
    s.pct_of_rh_difference =
      (if s.claimed_rh ≠ 0 then some (s.rh_difference / s.claimed_rh * 100) else none) ∧
    (s.matching_rh = "Yes" ↔
      ((∃ p, s.pct_of_rh_difference = some p ∧ |p| ≤ 5) ∨ |s.rh_difference| ≤ 5)) ∧
    (s.claimed_rh = 0 → (s.matching_rh = "Yes" ↔ |s.rh_difference| ≤ 5)) := by
  rcases mem_summaryTable alarms ref s hs with ⟨r, _, rfl⟩
  refine ⟨rfl, rfl, ?_, ?_⟩
  · rw [mkRow_matching, mkRow_pct, mkRow_rhdiff]
    exact matching_rh_yes_iff _ _
  · intro h0
    rw [mkRow_claimed] at h0
    have hp : pct_of_rh_difference r.claimed_rh
        (r.claimed_rh - gValue (taggedRows alarms ref) (refKey r)) = none := by
      unfold pct_of_rh_difference
      rw [if_neg (not_not_intro h0)]
    rw [mkRow_matching, mkRow_rhdiff, matching_rh_yes_iff, hp]
    simp

/-- C6 witness: the characterization applied to the concrete zero-claim row. -/
theorem c6_witness :
    s5c.matching_rh = "Yes" ↔
      ((∃ p, s5c.pct_of_rh_difference = some p ∧ |p| ≤ 5) ∨ |s5c.rh_difference| ≤ 5) :=
  (c6_matching_rh exA5 exR5 s5c (of_decide_eq_true (by with_unfolding_all rfl))).2.2.1

/-- C7: the duration-column detector is exactly the selection the
specification describes: form the deduplicated first-seen-ordered union of
keyword-named columns and valid numeric columns; one candidate is taken
directly, among several the first duration-patterned name is preferred with
the first candidate as fallback, and zero candidates yield the fatal
configuration error (modelled as `none`). -/
theorem c7_duration_detector (cols : List Column) : dur_col cols = dur_col_spec cols := by
  have hc : candidates cols = unionFirstSeen (keyword_matches cols) (numeric_valid cols) := by
    unfold candidates unionFirstSeen
    rw [foldl_dedup_eq]
    rfl
  unfold dur_col dur_col_spec
  rw [hc]
  rcases h : unionFirstSeen (keyword_matches cols) (numeric_valid cols)
    with _ | ⟨c, _ | ⟨c2, rest⟩⟩
  · rfl
  · rfl
  · rcases hf : (c :: c2 :: rest).find? isDurationName with _ | p
    · simp [hf]
    · simp [hf]

/-- C8: for every summary row, actual_mains_failed_hr is the sum of the
site's mains-failure-hours and its generator-hours (both tags combined). -/
theorem c8_actual_mains (alarms : List AlarmRow) (ref : List RefRow) (s : SummaryRow)
    (hs : s ∈ summaryTable alarms ref) :
    s.actual_mains_failed_hr = s.mains_failed_hr + s.genset_rh := by
  rcases mem_summaryTable alarms ref s hs with ⟨r, _, rfl⟩
  rfl

set_option maxRecDepth 8000 in
/-- C8 witness: the sum law applied to the concrete generator-only row. -/
theorem c8_witness :
    s10c.actual_mains_failed_hr = s10c.mains_failed_hr + s10c.genset_rh :=
  c8_actual_mains exA10 exR10 s10c (of_decide_eq_true (by with_unfolding_all rfl))

/-- C9: unclassified alarms stay in the raw table but contribute to neither
aggregate: every tagged windowed row projects into the raw table, the
per-site-and-type sums are unchanged when rows without a tag are discarded,
a group with no records sums to exactly zero, and every summary row carries
exactly these per-key sums (zero for the missing key). -/
theorem c9_aggregation (alarms : List AlarmRow) (ref : List RefRow) :
    (∀ t ∈ taggedRows alarms ref, rawOf t ∈ rawTable alarms ref) ∧
    (∀ k tag : String, sumDur (taggedRows alarms ref) k tag =
      sumDur ((taggedRows alarms ref).filter fun t => t.mg.isSome) k tag) ∧
    (∀ k tag : String,
      (∀ t ∈ taggedRows alarms ref, ¬(t.site_key = some k ∧ t.mg = some tag)) →
      sumDur (taggedRows alarms ref) k tag = 0) ∧
    (∀ s ∈ summaryTable alarms ref,
      s.genset_rh = gValue (taggedRows alarms ref) s.site_key ∧
      s.mains_failed_hr = mValue (taggedRows alarms ref) s.site_key) := by
  refine ⟨?_, ?_, ?_, ?_⟩
  · intro t ht
    exact List.mem_map.mpr ⟨t, ht, rfl⟩
  · intro k tag
    exact sumDur_filter_isSome _ k tag
  · intro k tag H
    exact sumDur_eq_zero _ k tag H
  · intro s hs
    rcases mem_summaryTable alarms ref s hs with ⟨r, _, rfl⟩
    exact ⟨rfl, rfl⟩

/-- C9 witness: a key with no alarm rows aggregates to exactly zero. -/
theorem c9_witness : sumDur (taggedRows exA10 exR10) "ZZZ" "G" = 0 :=
  (c9_aggregation exA10 exR10).2.2.1 "ZZZ" "G" (by decide)

/-- C10: the ≥10-hour generator dates and the derived justification attach
to a summary row only through equality of raw site-identifier strings: if no
qualifying (generator-tagged, duration ≥ 10) raw row carries exactly the
summary row's raw site_id, the row's dg_date_0 is missing and its
justification is the empty string — even when canonical keys match. -/
theorem c10_dg_raw_id_merge (alarms : List AlarmRow) (ref : List RefRow) (s : SummaryRow)
    (hs : s ∈ summaryTable alarms ref)
    (H : ∀ q ∈ rawTable alarms ref,
      q.alarm_type = some "G" → (10 : ℚ) ≤ q.duration_hr → q.site_id ≠ s.site_id) :
    s.dg_date_0 = none ∧ s.justification = "" := by
  rcases mem_summaryTable alarms ref s hs with ⟨r, _, rfl⟩
  simp only [mkRow_site_id] at H
  have hnone : dgLookup (dg10Table (rawTable alarms ref)) r.site_id = none := by
    apply dgLookup_eq_none
    intro q hq
    rcases List.mem_filter.mp hq with ⟨hqr, hqc⟩
    simp only [Bool.and_eq_true, decide_eq_true_eq] at hqc
    exact H q hqr hqc.1 hqc.2
  constructor
  · rw [mkRow_dg0]
    exact hnone
  · rw [mkRow_just, hnone]
    simp [justificationOf]

set_option maxRecDepth 8000 in
/-- C10 witness: with raw ids "AB_1" (alarm) and "AB-1" (reference) —
identical canonical keys, different raw strings — the summary row gets no
dg date and an empty justification. -/
theorem c10_witness : s10c.dg_date_0 = none ∧ s10c.justification = "" :=
  c10_dg_raw_id_merge exA10 exR10 s10c (of_decide_eq_true (by with_unfolding_all rfl)) (by decide)

end PGRun
